import Mathlib

/-!
Verification development for the diabetic-data cleaning scripts
(src/data_cleaning.py) and the ICD-9 scraping utility (src/icd9_scraper.py).

A pandas DataFrame is embedded as a column schema together with rows given
as ordered association lists from column names to cell values; a cell is
either a missing value (NaN), an integer, or a string.  Operations that can
raise in Python (KeyError on a missing column, and merges whose column
collisions fall outside the modelled domain) return Option.  Floating point
thresholds and means are modelled with exact rationals.
-/

/-- A cell of the table: missing (NaN), an integer, or free text. -/
inductive Value where
  | na : Value
  | int (n : Int) : Value
  | str (s : String) : Value
  deriving DecidableEq, Repr

/-- pandas isna on a cell. -/
def Value.isNA : Value → Bool
  | .na => true
  | _ => false

/-- pandas Series.isin against a list of integer codes: NaN and strings are
never members of an integer list. -/
def Value.isinInt (v : Value) (ids : List Int) : Bool :=
  match v with
  | .int n => ids.contains n
  | _ => false

/-- A DataFrame: the column labels and the rows, each row an ordered
association list from column label to cell value. -/
structure DF where
  cols : List String
  rows : List (List (String × Value))
  deriving DecidableEq, Repr

/-- Well-formedness: column labels are distinct and every row carries
exactly the schema's labels in order. -/
def DF.wf (df : DF) : Prop :=
  df.cols.Nodup ∧ ∀ r ∈ df.rows, r.map Prod.fst = df.cols

instance (df : DF) : Decidable df.wf := by
  unfold DF.wf; infer_instance

/-- Cell access in a row by column label (first matching pair). -/
def getVal (r : List (String × Value)) (c : String) : Option Value :=
  (r.find? (fun p => p.1 == c)).map Prod.snd

/-- The values of one column, top to bottom (NaN where the label is absent). -/
def DF.colVals (df : DF) (c : String) : List Value :=
  df.rows.map (fun r => (getVal r c).getD .na)

/-- pandas df.drop(columns=names): remove the labelled columns. -/
def dropColumns (df : DF) (names : List String) : DF :=
  { cols := df.cols.filter (fun c => !(names.contains c)),
    rows := df.rows.map (fun r => r.filter (fun p => !(names.contains p.1))) }

/-- Mean of an isna indicator over a column: None for an empty column
(pandas yields NaN there), otherwise the exact fraction of missing cells. -/
def isnaMean (vs : List Value) : Option ℚ :=
  if vs.isEmpty then none else some (mkRat (vs.countP Value.isNA) vs.length)

/-- Python comparison (x > t) where x may be NaN (None): NaN > t is False. -/
def optGT (x : Option ℚ) (t : ℚ) : Bool :=
  match x with
  | none => false
  | some q => decide (t < q)

/-- src/data_cleaning.py, drop_columns_if_missing: drop the candidate
columns whose missing fraction strictly exceeds the threshold.  Accessing a
candidate column absent from the frame raises KeyError in pandas, modelled
as none. -/
def drop_columns_if_missing (df : DF) (threshold : ℚ) (columns : List String) : Option DF :=
  if columns.all (fun c => df.cols.contains c) then
    some (dropColumns df (columns.filter (fun c => optGT (isnaMean (df.colVals c)) threshold)))
  else none

/-- src/data_cleaning.py, remove_expired_patients: if the discharge column
is absent, log and return the frame unchanged; otherwise keep the rows whose
discharge_disposition_id is not in the expired list. -/
def remove_expired_patients (df : DF) (expired_ids : List Int) : DF :=
  if df.cols.contains "discharge_disposition_id" then
    { df with rows := df.rows.filter (fun r =>
        !(((getVal r "discharge_disposition_id").getD .na).isinInt expired_ids)) }
  else df

/-- The (id, description) pairs of a mapping table. -/
def mappingPairs (m : DF) : List (Value × Value) :=
  m.rows.map (fun r => ((getVal r "id").getD .na, (getVal r "description").getD .na))

/-- pandas drop_duplicates keep=first, generalized over a key function:
scan with the set of keys already seen, keeping a row only the first time
its key appears. -/
def dropDuplicatesByAux {α β : Type} (f : α → β) [DecidableEq β] (seen : List β) :
    List α → List α
  | [] => []
  | x :: xs =>
    if f x ∈ seen then dropDuplicatesByAux f seen xs
    else x :: dropDuplicatesByAux f (f x :: seen) xs

/-- pandas drop_duplicates(subset=k, keep=first) on key f. -/
def dropDuplicatesBy {α β : Type} (f : α → β) [DecidableEq β] (l : List α) : List α :=
  dropDuplicatesByAux f [] l

/-- pandas df.drop_duplicates(): full-row duplicates, first kept. -/
def drop_duplicates {α : Type} [DecidableEq α] (l : List α) : List α :=
  dropDuplicatesBy (fun a => a) l

/-- One left-merge of rows against deduplicated (id, description) pairs:
each left row is repeated once per matching pair, or padded with NaN when no
pair matches. -/
def leftMergeRows (rows : List (List (String × Value))) (id_col : String)
    (pairs : List (Value × Value)) : List (List (String × Value)) :=
  (rows.map (fun r =>
    let ms := pairs.filter (fun p => p.1 == (getVal r id_col).getD .na)
    if ms.isEmpty then [r ++ [("id", Value.na), ("description", Value.na)]]
    else ms.map (fun p => r ++ [("id", p.1), ("description", p.2)]))).flatten

/-- pandas df.rename(columns={old: new}). -/
def renameCol (old new : String) (df : DF) : DF :=
  { cols := df.cols.map (fun c => if c = old then new else c),
    rows := df.rows.map (fun r => r.map (fun p => if p.1 = old then (new, p.2) else p)) }

/-- src/data_cleaning.py, merge_id_descriptions: restrict the mapping table
to (id, description), drop duplicate ids keeping the first, left-merge on
the id column, drop the temporary id column and rename description.  none
models the pandas KeyError when a named column is absent, and keeps merges
that would trigger pandas suffixing (a pre-existing id or description
column) outside the modelled domain. -/
def merge_id_descriptions (df mapping_df : DF) (id_col new_col_name : String) : Option DF :=
  if df.cols.contains id_col && mapping_df.cols.contains "id"
      && mapping_df.cols.contains "description"
      && !(df.cols.contains "id") && !(df.cols.contains "description") then
    let pairs := dropDuplicatesBy Prod.fst (mappingPairs mapping_df)
    let merged : DF := { cols := df.cols ++ ["id", "description"],
                         rows := leftMergeRows df.rows id_col pairs }
    some (renameCol "description" new_col_name (dropColumns merged ["id"]))
  else none

/-! ## The mapping-file parser (load_mapping_sections) -/

/-- The three fixed sections of IDs_mapping.csv. -/
inductive MapSection where
  | atype : MapSection
  | ddisp : MapSection
  | asource : MapSection
  deriving DecidableEq, Repr

/-- Python str.strip() on a line's characters: drop leading and trailing
whitespace. -/
def pyStrip (cs : List Char) : List Char :=
  ((cs.dropWhile Char.isWhitespace).reverse.dropWhile Char.isWhitespace).reverse

/-- Python line.split(chr(44), 1): the part before the first comma and the
remainder, or none when the line has no comma. -/
def splitAtComma : List Char → Option (List Char × List Char)
  | [] => none
  | c :: cs =>
    if c = ',' then some ([], cs)
    else (splitAtComma cs).map (fun p => (c :: p.1, p.2))

/-- Section-header detection on a stripped line, in the source's order of
startswith tests. -/
def headerOf (line : List Char) : Option MapSection :=
  if "admission_type_id".toList.isPrefixOf line then some .atype
  else if "discharge_disposition_id".toList.isPrefixOf line then some .ddisp
  else if "admission_source_id".toList.isPrefixOf line then some .asource
  else none

/-- Python str.isdigit for the ASCII digits appearing in the mapping file:
nonempty and all characters are digits. -/
def pyIsDigit (cs : List Char) : Bool :=
  !cs.isEmpty && cs.all Char.isDigit

/-- Python int() on a string of decimal digits. -/
def digitsToNat (cs : List Char) : Nat :=
  cs.foldl (fun n c => 10 * n + (c.toNat - 48)) 0

/-- Python desc.strip(chr(34)): remove every leading and trailing double
quote character. -/
def stripQuotes (cs : List Char) : List Char :=
  ((cs.dropWhile (fun ch => ch == '"')).reverse.dropWhile (fun ch => ch == '"')).reverse

/-- Parse one stripped data line: requires a comma, splits at the first
comma, and yields an entry only when the id part is all digits. -/
def parseEntry (line : List Char) : Option (Int × String) :=
  match splitAtComma line with
  | none => none
  | some (id_val, desc) =>
    if pyIsDigit id_val then some ((digitsToNat id_val : Int), String.mk (stripQuotes desc))
    else none

/-- The three association lists being populated. -/
structure MapSections where
  atype : List (Int × String)
  ddisp : List (Int × String)
  asource : List (Int × String)
  deriving DecidableEq, Repr

/-- The list for one section. -/
def MapSections.get (s : MapSections) : MapSection → List (Int × String)
  | .atype => s.atype
  | .ddisp => s.ddisp
  | .asource => s.asource

/-- Append an entry to one section's list. -/
def MapSections.push (s : MapSections) (sec : MapSection) (e : Int × String) : MapSections :=
  match sec with
  | .atype => { s with atype := s.atype ++ [e] }
  | .ddisp => { s with ddisp := s.ddisp ++ [e] }
  | .asource => { s with asource := s.asource ++ [e] }

/-- The line loop of load_mapping_sections: strip, skip blanks, switch on
headers, and under the current section record well-formed entries. -/
def parseLoop (cur : Option MapSection) (acc : MapSections) :
    List String → MapSections
  | [] => acc
  | raw :: rest =>
    let line := pyStrip raw.toList
    if line.isEmpty then parseLoop cur acc rest
    else
      match headerOf line with
      | some s => parseLoop (some s) acc rest
      | none =>
        match cur with
        | none => parseLoop cur acc rest
        | some s =>
          match parseEntry line with
          | some e => parseLoop cur (acc.push s e) rest
          | none => parseLoop cur acc rest

/-- pd.DataFrame on a list of {id, description} records: an empty list
yields an empty frame with no columns. -/
def sectionToDF (l : List (Int × String)) : DF :=
  if l.isEmpty then { cols := [], rows := [] }
  else { cols := ["id", "description"],
         rows := l.map (fun e => [("id", Value.int e.1), ("description", Value.str e.2)]) }

/-- src/data_cleaning.py, load_mapping_sections, on the file's lines:
returns the three mapping DataFrames. -/
def load_mapping_sections (lines : List String) : DF × DF × DF :=
  let s := parseLoop none ⟨[], [], []⟩ lines
  (sectionToDF s.atype, sectionToDF s.ddisp, sectionToDF s.asource)

/-! ## The pipeline (clean_diabetic_data), minus file I/O -/

/-- src/data_cleaning.py, clean_diabetic_data, parameterized by the loaded
raw frame and the lines of IDs_mapping.csv: drop weight if over 90 percent
missing, remove expired patients, merge the three description columns, and
drop duplicate rows. -/
def clean_diabetic_data (df : DF) (mappingLines : List String) : Option DF :=
  (drop_columns_if_missing df (mkRat 9 10) ["weight"]).bind fun df1 =>
  let df2 := remove_expired_patients df1 [11, 19, 20, 21]
  let maps := load_mapping_sections mappingLines
  (merge_id_descriptions df2 maps.1 "admission_type_id" "admission_type_desc").bind fun df3 =>
  (merge_id_descriptions df3 maps.2.1 "discharge_disposition_id" "discharge_desc").bind fun df4 =>
  (merge_id_descriptions df4 maps.2.2 "admission_source_id" "admission_source_desc").map fun df5 =>
  { df5 with rows := drop_duplicates df5.rows }

/-! ## Concrete data used to exercise the definitions -/

/-- A small raw frame: weight entirely missing, two identical encounters. -/
def exdf : DF :=
  { cols := ["weight", "discharge_disposition_id", "admission_type_id", "admission_source_id"],
    rows := [
      [("weight", Value.na), ("discharge_disposition_id", Value.int 1),
       ("admission_type_id", Value.int 1), ("admission_source_id", Value.int 7)],
      [("weight", Value.na), ("discharge_disposition_id", Value.int 1),
       ("admission_type_id", Value.int 1), ("admission_source_id", Value.int 7)]] }

/-- A small mapping file in the layout of IDs_mapping.csv. -/
def exlines : List String :=
  ["admission_type_id,description", "1,Emergency", "",
   "discharge_disposition_id,description", "1,Discharged to home",
   "admission_source_id,description", "7,Emergency Room"]

/-- The cleaned frame the pipeline produces from exdf and exlines. -/
def exout : DF :=
  { cols := ["discharge_disposition_id", "admission_type_id", "admission_source_id",
             "admission_type_desc", "discharge_desc", "admission_source_desc"],
    rows := [
      [("discharge_disposition_id", Value.int 1), ("admission_type_id", Value.int 1),
       ("admission_source_id", Value.int 7), ("admission_type_desc", Value.str "Emergency"),
       ("discharge_desc", Value.str "Discharged to home"),
       ("admission_source_desc", Value.str "Emergency Room")]] }

/-! ## Row access lemmas -/

theorem getVal_append_left {r s : List (String × Value)} {c : String} {v : Value}
    (h : getVal r c = some v) : getVal (r ++ s) c = some v := by
  unfold getVal at h ⊢
  rw [List.find?_append]
  cases hf : r.find? (fun p => p.1 == c) with
  | none => rw [hf] at h; simp at h
  | some x => rw [hf] at h; simpa using h

theorem getVal_filter_keys {r : List (String × Value)} {names : List String} {c : String}
    (h : c ∉ names) :
    getVal (r.filter (fun p => !(names.contains p.1))) c = getVal r c := by
  unfold getVal
  rw [List.find?_filter]
  have hp : (fun a : String × Value => decide ((!names.contains a.1) = true ∧ (a.1 == c) = true))
      = fun p : String × Value => p.1 == c := by
    funext a
    by_cases hac : a.1 = c
    · simp [hac, h]
    · simp [hac]
  rw [hp]

theorem dropColumns_cols (df : DF) (names : List String) :
    (dropColumns df names).cols = df.cols.filter (fun c => !(names.contains c)) := rfl

theorem dropColumns_rows_length (df : DF) (names : List String) :
    (dropColumns df names).rows.length = df.rows.length := by
  simp [dropColumns]

theorem dropColumns_colVals (df : DF) (names : List String) (c : String)
    (h : c ∉ names) :
    (dropColumns df names).colVals c = df.colVals c := by
  unfold DF.colVals dropColumns
  simp only [List.map_map]
  congr 1
  funext r
  show (getVal (r.filter (fun p => !(names.contains p.1))) c).getD .na
      = (getVal r c).getD .na
  rw [getVal_filter_keys h]

/-! ## C1: the column-drop threshold -/

/-- C1: for every frame, threshold and candidate list (whose columns exist
in the frame, as pandas raises otherwise), drop_columns_if_missing drops
exactly the candidate columns whose missing fraction strictly exceeds the
threshold: a candidate whose fraction equals the threshold is retained, one
strictly above is dropped, non-candidate columns are kept, every kept
column's values are unchanged, and the number of rows is unchanged. -/
theorem drop_columns_if_missing_spec (df : DF) (t : ℚ) (columns : List String)
    (hc : ∀ c ∈ columns, c ∈ df.cols) :
    ∃ df', drop_columns_if_missing df t columns = some df' ∧
      (∀ c, c ∈ df'.cols ↔
        c ∈ df.cols ∧ ¬(c ∈ columns ∧ optGT (isnaMean (df.colVals c)) t = true)) ∧
      (∀ c ∈ columns, isnaMean (df.colVals c) = some t → c ∈ df'.cols) ∧
      (∀ c ∈ columns, ∀ q, isnaMean (df.colVals c) = some q → t < q → c ∉ df'.cols) ∧
      df'.rows.length = df.rows.length ∧
      (∀ c ∈ df'.cols, df'.colVals c = df.colVals c) := by
  have hguard : (columns.all (fun c => df.cols.contains c)) = true := by
    simp only [List.all_eq_true]
    intro c hcmem
    simpa using hc c hcmem
  refine ⟨dropColumns df (columns.filter (fun c => optGT (isnaMean (df.colVals c)) t)),
    ?_, ?_, ?_, ?_, ?_, ?_⟩
  · unfold drop_columns_if_missing
    rw [hguard]
    simp
  · intro c
    rw [dropColumns_cols, List.mem_filter]
    have hdrop : ((!((columns.filter (fun c => optGT (isnaMean (df.colVals c)) t)).contains c))
          = true)
        ↔ ¬ (c ∈ columns ∧ optGT (isnaMean (df.colVals c)) t = true) := by
      simp [List.mem_filter]
      tauto
    rw [hdrop]
  · intro c hcmem heq
    rw [dropColumns_cols, List.mem_filter]
    refine ⟨hc c hcmem, ?_⟩
    simp [List.mem_filter, heq, optGT]
  · intro c hcmem q hq hlt
    rw [dropColumns_cols, List.mem_filter]
    simp [List.mem_filter, hq, optGT, hlt, hcmem]
  · exact dropColumns_rows_length _ _
  · intro c hcmem
    rw [dropColumns_cols, List.mem_filter] at hcmem
    refine dropColumns_colVals _ _ _ ?_
    intro hmem
    have h2 := hcmem.2
    simp [hmem] at h2

/-- Witness for C1 at a concrete frame: the all-missing weight column of
exdf is dropped at threshold nine tenths. -/
theorem drop_columns_if_missing_spec_witness :
    ∃ df', drop_columns_if_missing exdf (mkRat 9 10) ["weight"] = some df' ∧
      (∀ c, c ∈ df'.cols ↔
        c ∈ exdf.cols ∧ ¬(c ∈ ["weight"] ∧ optGT (isnaMean (exdf.colVals c)) (mkRat 9 10) = true)) ∧
      (∀ c ∈ ["weight"], isnaMean (exdf.colVals c) = some (mkRat 9 10) → c ∈ df'.cols) ∧
      (∀ c ∈ ["weight"], ∀ q, isnaMean (exdf.colVals c) = some q → mkRat 9 10 < q → c ∉ df'.cols) ∧
      df'.rows.length = exdf.rows.length ∧
      (∀ c ∈ df'.cols, df'.colVals c = exdf.colVals c) :=
  drop_columns_if_missing_spec exdf (mkRat 9 10) ["weight"] (by decide)

/-! ## Deduplication lemmas -/

theorem dropDuplicatesByAux_sublist {α β : Type} (f : α → β) [DecidableEq β] :
    ∀ (l : List α) (seen : List β), (dropDuplicatesByAux f seen l).Sublist l := by
  intro l
  induction l with
  | nil => intro seen; simp [dropDuplicatesByAux]
  | cons x xs ih =>
    intro seen
    unfold dropDuplicatesByAux
    by_cases h : f x ∈ seen
    · rw [if_pos h]
      exact (ih seen).cons x
    · rw [if_neg h]
      exact (ih (f x :: seen)).cons₂ x

theorem key_not_seen_of_mem_dropDuplicatesByAux {α β : Type} (f : α → β) [DecidableEq β] :
    ∀ (l : List α) (seen : List β) (a : α),
      a ∈ dropDuplicatesByAux f seen l → f a ∉ seen := by
  intro l
  induction l with
  | nil => intro seen a h; simp [dropDuplicatesByAux] at h
  | cons x xs ih =>
    intro seen a h
    unfold dropDuplicatesByAux at h
    by_cases hx : f x ∈ seen
    · rw [if_pos hx] at h
      exact ih seen a h
    · rw [if_neg hx] at h
      rcases List.mem_cons.mp h with rfl | hmem
      · exact hx
      · have := ih (f x :: seen) a hmem
        intro habs
        exact this (List.mem_cons_of_mem _ habs)

theorem dropDuplicatesByAux_pairwise {α β : Type} (f : α → β) [DecidableEq β] :
    ∀ (l : List α) (seen : List β),
      (dropDuplicatesByAux f seen l).Pairwise (fun a b => f a ≠ f b) := by
  intro l
  induction l with
  | nil => intro seen; simp [dropDuplicatesByAux]
  | cons x xs ih =>
    intro seen
    unfold dropDuplicatesByAux
    by_cases hx : f x ∈ seen
    · rw [if_pos hx]; exact ih seen
    · rw [if_neg hx]
      rw [List.pairwise_cons]
      refine ⟨?_, ih (f x :: seen)⟩
      intro b hb
      have := key_not_seen_of_mem_dropDuplicatesByAux f xs (f x :: seen) b hb
      intro habs
      exact this (habs ▸ List.mem_cons_self _ _)

theorem mem_dropDuplicatesByAux_id {α : Type} [DecidableEq α] :
    ∀ (l : List α) (seen : List α) (a : α),
      a ∈ l → a ∉ seen → a ∈ dropDuplicatesByAux (fun x => x) seen l := by
  intro l
  induction l with
  | nil => intro seen a h; simp at h
  | cons x xs ih =>
    intro seen a hmem hs
    unfold dropDuplicatesByAux
    by_cases hx : x ∈ seen
    · rw [if_pos hx]
      rcases List.mem_cons.mp hmem with rfl | h2
      · exact absurd hx hs
      · exact ih seen a h2 hs
    · rw [if_neg hx]
      rcases List.mem_cons.mp hmem with rfl | h2
      · exact List.mem_cons_self _ _
      · by_cases hax : a = x
        · exact hax ▸ List.mem_cons_self _ _
        · refine List.mem_cons_of_mem _ (ih (x :: seen) a h2 ?_)
          intro habs
          rcases List.mem_cons.mp habs with h3 | h3
          · exact hax h3
          · exact hs h3

theorem dropDuplicatesByAux_indexOf_pairwise {α : Type} [DecidableEq α] [BEq α] [LawfulBEq α] :
    ∀ (l : List α) (seen : List α),
      (dropDuplicatesByAux (fun x => x) seen l).Pairwise
        (fun a b => l.indexOf a < l.indexOf b) := by
  intro l
  induction l with
  | nil => intro seen; simp [dropDuplicatesByAux]
  | cons x xs ih =>
    intro seen
    have hne : ∀ b ∈ dropDuplicatesByAux (fun y => y) (x :: seen) xs, b ≠ x := by
      intro b hb habs
      have := key_not_seen_of_mem_dropDuplicatesByAux (fun y => y) xs (x :: seen) b hb
      exact this (habs ▸ List.mem_cons_self _ _)
    unfold dropDuplicatesByAux
    by_cases hx : x ∈ seen
    · rw [if_pos hx]
      refine (ih seen).imp_of_mem ?_
      intro a b ha hb hlt
      have hax : a ≠ x := by
        intro habs
        have := key_not_seen_of_mem_dropDuplicatesByAux (fun y => y) xs seen a ha
        exact this (habs ▸ hx)
      have hbx : b ≠ x := by
        intro habs
        have := key_not_seen_of_mem_dropDuplicatesByAux (fun y => y) xs seen b hb
        exact this (habs ▸ hx)
      rw [List.indexOf_cons, List.indexOf_cons]
      have hxa : (x == a) = false := by simpa using fun h => hax h.symm
      have hxb : (x == b) = false := by simpa using fun h => hbx h.symm
      rw [hxa, hxb]
      simpa using hlt
    · rw [if_neg hx]
      rw [List.pairwise_cons]
      constructor
      · intro b hb
        have hbx : b ≠ x := hne b hb
        rw [List.indexOf_cons, List.indexOf_cons]
        have hxx : (x == x) = true := by simp
        have hxb : (x == b) = false := by simpa using fun h => hbx h.symm
        rw [hxx, hxb]
        simp
      · refine (ih (x :: seen)).imp_of_mem ?_
        intro a b ha hb hlt
        have hax : a ≠ x := hne a ha
        have hbx : b ≠ x := hne b hb
        rw [List.indexOf_cons, List.indexOf_cons]
        have hxa : (x == a) = false := by simpa using fun h => hax h.symm
        have hxb : (x == b) = false := by simpa using fun h => hbx h.symm
        rw [hxa, hxb]
        simpa using hlt

theorem find?_dropDuplicatesByAux {α β : Type} (f : α → β) [DecidableEq β] :
    ∀ (l : List α) (seen : List β) (v : β), v ∉ seen →
      (dropDuplicatesByAux f seen l).find? (fun a => f a == v)
        = l.find? (fun a => f a == v) := by
  intro l
  induction l with
  | nil => intro seen v _; simp [dropDuplicatesByAux]
  | cons x xs ih =>
    intro seen v hv
    unfold dropDuplicatesByAux
    by_cases hx : f x ∈ seen
    · rw [if_pos hx]
      have hfx : (f x == v) = false := by
        have : f x ≠ v := fun habs => hv (habs ▸ hx)
        simpa using this
      rw [List.find?_cons, hfx]
      exact ih seen v hv
    · rw [if_neg hx]
      by_cases hfx : (f x == v) = true
      · rw [List.find?_cons, hfx, List.find?_cons, hfx]
      · have hfx' : (f x == v) = false := by simpa using hfx
        rw [List.find?_cons, hfx', List.find?_cons, hfx']
        refine ih (f x :: seen) v ?_
        intro habs
        rcases List.mem_cons.mp habs with h3 | h3
        · rw [h3] at hfx'; simp at hfx'
        · exact hv h3

theorem filter_eq_find?_toList_of_pairwise {α β : Type} {f : α → β} [DecidableEq β] :
    ∀ {l : List α}, l.Pairwise (fun a b => f a ≠ f b) → ∀ v : β,
      l.filter (fun a => f a == v) = (l.find? (fun a => f a == v)).toList := by
  intro l
  induction l with
  | nil => intro _ v; simp
  | cons x xs ih =>
    intro hp v
    rw [List.pairwise_cons] at hp
    by_cases hfx : (f x == v) = true
    · have hnil : xs.filter (fun a => f a == v) = [] := by
        rw [List.filter_eq_nil_iff]
        intro b hb
        have : f x ≠ f b := hp.1 b hb
        have hfv : f x = v := by simpa using hfx
        simp only [beq_iff_eq]
        intro habs
        exact this (by rw [habs, hfv])
      simp only [List.filter_cons, List.find?_cons, hfx, if_pos, hnil]
      simp
    · have hfx' : (f x == v) = false := by simpa using hfx
      simp only [List.filter_cons, List.find?_cons, hfx', if_neg, Bool.false_eq_true,
        not_false_iff]
      exact ih hp.2 v

/-! ## C3: deduplication at the end of the pipeline -/

/-- C3: drop_duplicates (pandas keep=first on all columns) returns a
sublist of the rows (original relative order), containing exactly the
distinct rows, with no two remaining rows equal, ordered and selected by
first occurrence; and after the pipeline's deduplication step no two rows
of the cleaned table are equal. -/
theorem drop_duplicates_spec :
    (∀ (l : List (List (String × Value))),
      (drop_duplicates l).Sublist l ∧
      (∀ r, r ∈ drop_duplicates l ↔ r ∈ l) ∧
      (drop_duplicates l).Nodup ∧
      (drop_duplicates l).Pairwise (fun a b => l.indexOf a < l.indexOf b)) ∧
    (∀ (df : DF) (lines : List String) (out : DF),
      clean_diabetic_data df lines = some out → out.rows.Nodup) := by
  constructor
  · intro l
    refine ⟨dropDuplicatesByAux_sublist _ l [], ⟨?_, ?_, ?_⟩⟩
    · intro r
      constructor
      · intro h
        exact (dropDuplicatesByAux_sublist _ l []).subset h
      · intro h
        exact mem_dropDuplicatesByAux_id l [] r h (by simp)
    · have := dropDuplicatesByAux_pairwise (fun x : List (String × Value) => x) l []
      simpa [List.Nodup] using this
    · exact dropDuplicatesByAux_indexOf_pairwise l []
  · intro df lines out h
    unfold clean_diabetic_data at h
    rw [Option.bind_eq_some] at h
    obtain ⟨df1, _, h⟩ := h
    rw [Option.bind_eq_some] at h
    obtain ⟨df3, _, h⟩ := h
    rw [Option.bind_eq_some] at h
    obtain ⟨df4, _, h⟩ := h
    rw [Option.map_eq_some'] at h
    obtain ⟨df5, _, h5⟩ := h
    have : out.rows = drop_duplicates df5.rows := by rw [← h5]
    rw [this]
    have := dropDuplicatesByAux_pairwise (fun x : List (String × Value) => x) df5.rows []
    simpa [drop_duplicates, dropDuplicatesBy, List.Nodup] using this

/-- Witness for C3: the two identical rows of exdf leave a single row after
the pipeline, and the cleaned rows are duplicate-free. -/
theorem drop_duplicates_spec_witness : exout.rows.Nodup :=
  drop_duplicates_spec.2 exdf exlines exout (by decide)

/-! ## Merge lemmas and C10: row-count preservation -/

theorem length_filter_le_one_of_pairwise {α β : Type} {f : α → β} [DecidableEq β] :
    ∀ {l : List α}, l.Pairwise (fun a b => f a ≠ f b) → ∀ v : β,
      (l.filter (fun a => f a == v)).length ≤ 1 := by
  intro l
  induction l with
  | nil => intro _ v; simp
  | cons x xs ih =>
    intro hp v
    rw [List.pairwise_cons] at hp
    rw [filter_eq_find?_toList_of_pairwise (List.pairwise_cons.mpr hp) v]
    cases (x :: xs).find? (fun a => f a == v) <;> simp

theorem leftMergeRows_length (rows : List (List (String × Value))) (id_col : String)
    (pairs : List (Value × Value))
    (hp : pairs.Pairwise (fun a b => a.1 ≠ b.1)) :
    (leftMergeRows rows id_col pairs).length = rows.length := by
  unfold leftMergeRows
  induction rows with
  | nil => simp
  | cons r rs ih =>
    rw [List.map_cons, List.flatten_cons, List.length_append, ih, List.length_cons]
    have hone : (let ms := pairs.filter (fun p => p.1 == (getVal r id_col).getD .na)
        if ms.isEmpty then [r ++ [("id", Value.na), ("description", Value.na)]]
        else ms.map (fun p => r ++ [("id", p.1), ("description", p.2)])).length = 1 := by
      set ms := pairs.filter (fun p => p.1 == (getVal r id_col).getD .na) with hms
      by_cases hempty : ms.isEmpty = true
      · simp [hempty]
      · have hle : ms.length ≤ 1 := by
          rw [hms]
          exact length_filter_le_one_of_pairwise hp _
        have hpos : 0 < ms.length := by
          cases hmsl : ms with
          | nil => rw [hmsl] at hempty; simp at hempty
          | cons a as => simp [hmsl]
        simp only [hempty, if_neg, Bool.false_eq_true, not_false_iff, List.length_map]
        omega
    rw [hone]
    omega

/-- C10: a successful merge_id_descriptions returns exactly as many rows as
its input frame, because duplicate ids are dropped from the mapping table
before the left merge; in particular each of the pipeline's three merge
steps preserves the encounter row count. -/
theorem merge_id_descriptions_row_count (df mapping_df : DF) (id_col new_col_name : String)
    (df' : DF) (h : merge_id_descriptions df mapping_df id_col new_col_name = some df') :
    df'.rows.length = df.rows.length := by
  unfold merge_id_descriptions at h
  by_cases hguard : (df.cols.contains id_col && mapping_df.cols.contains "id"
      && mapping_df.cols.contains "description"
      && !(df.cols.contains "id") && !(df.cols.contains "description")) = true
  · rw [if_pos hguard] at h
    have h' := Option.some.inj h
    subst h'
    simp only [renameCol, dropColumns, List.length_map]
    exact leftMergeRows_length _ _ _
      (dropDuplicatesByAux_pairwise Prod.fst (mappingPairs mapping_df) [])
  · rw [if_neg hguard] at h
    exact absurd h (by simp)

/-- A mapping frame with a duplicated id 1, used to exercise the merges. -/
def exmap : DF :=
  { cols := ["id", "description"],
    rows := [[("id", Value.int 1), ("description", Value.str "A")],
             [("id", Value.int 1), ("description", Value.str "B")],
             [("id", Value.int 3), ("description", Value.str "C")]] }

/-- A two-row frame keyed by column k, used to exercise the merges. -/
def exleft : DF :=
  { cols := ["k"], rows := [[("k", Value.int 1)], [("k", Value.int 2)]] }

/-- The merge of exleft with exmap on k. -/
def exmerged : DF :=
  { cols := ["k", "kd"],
    rows := [[("k", Value.int 1), ("kd", Value.str "A")],
             [("k", Value.int 2), ("kd", Value.na)]] }

/-- Witness for C10: merging exleft (two rows) against exmap (which holds a
duplicated id) keeps exactly two rows. -/
theorem merge_id_descriptions_row_count_witness : exmerged.rows.length = exleft.rows.length :=
  merge_id_descriptions_row_count exleft exmap "k" "kd" exmerged (by decide)

theorem find?_dropDuplicatesBy {α β : Type} (f : α → β) [DecidableEq β] (l : List α) (v : β) :
    (dropDuplicatesBy f l).find? (fun a => f a == v) = l.find? (fun a => f a == v) :=
  find?_dropDuplicatesByAux f l [] v (by simp)

/-! ## C2: description columns from the mapping table -/

/-- The description the mapping table records for an id value: the second
component of the first (id, description) pair whose id equals it, or NaN
when the id is unknown to the mapping. -/
def lookupDescription (m : DF) (v : Value) : Value :=
  match (mappingPairs m).find? (fun p => p.1 == v) with
  | some p => p.2
  | none => Value.na

theorem flatten_singleton_map {α β : Type} (g : α → β) (l : List α) :
    (l.map (fun x => [g x])).flatten = l.map g := by
  induction l with
  | nil => simp
  | cons x xs ih => simp [ih]

theorem merge_transform_row (r : List (String × Value)) (nc : String) (a b : Value)
    (h1 : ∀ p ∈ r, p.1 ≠ "id") (h2 : ∀ p ∈ r, p.1 ≠ "description") :
    ((r ++ [("id", a), ("description", b)]).filter
        (fun p => !((["id"] : List String).contains p.1))).map
      (fun p => if p.1 = "description" then (nc, p.2) else p) = r ++ [(nc, b)] := by
  rw [List.filter_append]
  have hr : r.filter (fun p => !((["id"] : List String).contains p.1)) = r := by
    rw [List.filter_eq_self]
    intro p hp
    simp [h1 p hp]
  rw [hr]
  have happ : ([(("id" : String), a), (("description" : String), b)]).filter
      (fun p => !((["id"] : List String).contains p.1)) = [("description", b)] := by
    simp
  rw [happ, List.map_append]
  have hmap : r.map (fun p => if p.1 = "description" then (nc, p.2) else p) = r := by
    have : ∀ p ∈ r, (if p.1 = "description" then ((nc, p.2) : String × Value) else p) = p := by
      intro p hp
      rw [if_neg (h2 p hp)]
    rw [List.map_congr_left this]
    exact List.map_id' r
  rw [hmap]
  simp

/-- The explicit form of a successful merge on aligned rows: the new
description column is appended, valued by lookupDescription. -/
theorem merge_id_descriptions_eq (df mapping_df : DF) (ic nc : String)
    (hic : ic ∈ df.cols) (hmid : "id" ∈ mapping_df.cols)
    (hmdesc : "description" ∈ mapping_df.cols)
    (hid : "id" ∉ df.cols) (hdesc : "description" ∉ df.cols)
    (halign : ∀ r ∈ df.rows, r.map Prod.fst = df.cols) :
    merge_id_descriptions df mapping_df ic nc = some
      { cols := df.cols ++ [nc],
        rows := df.rows.map (fun r =>
          r ++ [(nc, lookupDescription mapping_df ((getVal r ic).getD .na))]) } := by
  have hguard : (df.cols.contains ic && mapping_df.cols.contains "id"
      && mapping_df.cols.contains "description"
      && !(df.cols.contains "id") && !(df.cols.contains "description")) = true := by
    simp [hic, hmid, hmdesc, hid, hdesc]
  unfold merge_id_descriptions
  rw [if_pos hguard]
  have hpw : (dropDuplicatesBy Prod.fst (mappingPairs mapping_df)).Pairwise
      (fun a b => a.1 ≠ b.1) :=
    dropDuplicatesByAux_pairwise Prod.fst (mappingPairs mapping_df) []
  have hlm : leftMergeRows df.rows ic (dropDuplicatesBy Prod.fst (mappingPairs mapping_df))
      = df.rows.map (fun r =>
        r ++ [("id",
          (match (mappingPairs mapping_df).find?
              (fun p => p.1 == (getVal r ic).getD .na) with
            | some p => p.1
            | none => Value.na)),
          ("description", lookupDescription mapping_df ((getVal r ic).getD .na))]) := by
    unfold leftMergeRows
    rw [show (df.rows.map (fun r =>
        let ms := (dropDuplicatesBy Prod.fst (mappingPairs mapping_df)).filter
          (fun p => p.1 == (getVal r ic).getD .na)
        if ms.isEmpty then [r ++ [("id", Value.na), ("description", Value.na)]]
        else ms.map (fun p => r ++ [("id", p.1), ("description", p.2)])))
      = df.rows.map (fun r =>
          [r ++ [("id",
            (match (mappingPairs mapping_df).find?
                (fun p => p.1 == (getVal r ic).getD .na) with
              | some p => p.1
              | none => Value.na)),
            ("description", lookupDescription mapping_df ((getVal r ic).getD .na))]])
      from ?_, flatten_singleton_map]
    apply List.map_congr_left
    intro r _
    have hms : (dropDuplicatesBy Prod.fst (mappingPairs mapping_df)).filter
        (fun p => p.1 == (getVal r ic).getD .na)
        = ((mappingPairs mapping_df).find?
            (fun p => p.1 == (getVal r ic).getD .na)).toList := by
      rw [filter_eq_find?_toList_of_pairwise hpw ((getVal r ic).getD .na)]
      rw [find?_dropDuplicatesBy Prod.fst (mappingPairs mapping_df) ((getVal r ic).getD .na)]
    cases hfind : (mappingPairs mapping_df).find?
        (fun p => p.1 == (getVal r ic).getD .na) with
    | none =>
      rw [hfind] at hms
      simp [hms, lookupDescription, hfind]
    | some p =>
      rw [hfind] at hms
      simp [hms, lookupDescription, hfind]
  simp only [renameCol, dropColumns, hlm, Option.some.injEq, DF.mk.injEq]
  constructor
  · rw [List.filter_append]
    have hcls : df.cols.filter (fun c => !((["id"] : List String).contains c)) = df.cols := by
      rw [List.filter_eq_self]
      intro c hcmem
      have : c ≠ "id" := fun habs => hid (habs ▸ hcmem)
      simp [this]
    have htl : (["id", "description"] : List String).filter
        (fun c => !((["id"] : List String).contains c)) = ["description"] := by simp
    rw [hcls, htl, List.map_append]
    have hmapc : df.cols.map (fun c => if c = "description" then nc else c) = df.cols := by
      have hcong : ∀ c ∈ df.cols, (if c = "description" then nc else c) = c := by
        intro c hcmem
        have hne : c ≠ "description" := by
          intro habs
          rw [habs] at hcmem
          exact hdesc hcmem
        rw [if_neg hne]
      rw [List.map_congr_left hcong]
      simp
    rw [hmapc]
    simp
  · rw [List.map_map, List.map_map]
    apply List.map_congr_left
    intro r hr
    have h1 : ∀ p ∈ r, p.1 ≠ "id" := by
      intro p hp habs
      have : p.1 ∈ df.cols := by
        rw [← halign r hr]
        exact List.mem_map_of_mem Prod.fst hp
      exact hid (habs ▸ this)
    have h2 : ∀ p ∈ r, p.1 ≠ "description" := by
      intro p hp habs
      have : p.1 ∈ df.cols := by
        rw [← halign r hr]
        exact List.mem_map_of_mem Prod.fst hp
      exact hdesc (habs ▸ this)
    exact merge_transform_row r nc _ _ h1 h2

theorem getVal_append_self {r : List (String × Value)} {nc : String} {d : Value}
    (h : nc ∉ r.map Prod.fst) : getVal (r ++ [(nc, d)]) nc = some d := by
  unfold getVal
  rw [List.find?_append]
  have hnone : r.find? (fun p => p.1 == nc) = none := by
    rw [List.find?_eq_none]
    intro p hp
    simp only [beq_iff_eq]
    intro habs
    exact h (habs ▸ List.mem_map_of_mem Prod.fst hp)
  rw [hnone]
  simp

/-- C2: for every aligned frame (id column present, no id or description
column of its own, fresh target name) and mapping table carrying id and
description columns, merge_id_descriptions adds a new description column
whose value in each row is the label the mapping table records for the
row's id when that id is known, and NaN when it is unknown; the temporary
id column is absent from the result. -/
theorem merge_id_descriptions_spec (df mapping_df : DF) (ic nc : String)
    (hic : ic ∈ df.cols) (hmid : "id" ∈ mapping_df.cols)
    (hmdesc : "description" ∈ mapping_df.cols)
    (hid : "id" ∉ df.cols) (hdesc : "description" ∉ df.cols)
    (halign : ∀ r ∈ df.rows, r.map Prod.fst = df.cols)
    (hncid : nc ≠ "id") (hncdf : nc ∉ df.cols) :
    ∃ df', merge_id_descriptions df mapping_df ic nc = some df' ∧
      df'.cols = df.cols ++ [nc] ∧
      "id" ∉ df'.cols ∧
      df'.rows = df.rows.map (fun r =>
        r ++ [(nc, lookupDescription mapping_df ((getVal r ic).getD .na))]) ∧
      (∀ r ∈ df.rows,
        getVal (r ++ [(nc, lookupDescription mapping_df ((getVal r ic).getD .na))]) nc
          = some (lookupDescription mapping_df ((getVal r ic).getD .na))) ∧
      (∀ v p, (mappingPairs mapping_df).find? (fun q => q.1 == v) = some p →
        lookupDescription mapping_df v = p.2) ∧
      (∀ v, (mappingPairs mapping_df).find? (fun q => q.1 == v) = none →
        lookupDescription mapping_df v = Value.na) := by
  refine ⟨_, merge_id_descriptions_eq df mapping_df ic nc hic hmid hmdesc hid hdesc halign,
    rfl, ?_, rfl, ?_, ?_, ?_⟩
  · intro habs
    rcases List.mem_append.mp habs with h1 | h1
    · exact hid h1
    · rcases List.mem_singleton.mp h1 with h2
      exact hncid h2.symm
  · intro r hr
    apply getVal_append_self
    rw [halign r hr]
    exact hncdf
  · intro v p h
    unfold lookupDescription
    rw [h]
  · intro v h
    unfold lookupDescription
    rw [h]

/-- Witness for C2: merging exleft with exmap on k records label A for the
known id 1 and NaN for the unknown id 2. -/
theorem merge_id_descriptions_spec_witness :
    ∃ df', merge_id_descriptions exleft exmap "k" "kd" = some df' ∧
      df'.cols = exleft.cols ++ ["kd"] ∧
      "id" ∉ df'.cols ∧
      df'.rows = exleft.rows.map (fun r =>
        r ++ [("kd", lookupDescription exmap ((getVal r "k").getD .na))]) ∧
      (∀ r ∈ exleft.rows,
        getVal (r ++ [("kd", lookupDescription exmap ((getVal r "k").getD .na))]) "kd"
          = some (lookupDescription exmap ((getVal r "k").getD .na))) ∧
      (∀ v p, (mappingPairs exmap).find? (fun q => q.1 == v) = some p →
        lookupDescription exmap v = p.2) ∧
      (∀ v, (mappingPairs exmap).find? (fun q => q.1 == v) = none →
        lookupDescription exmap v = Value.na) :=
  merge_id_descriptions_spec exleft exmap "k" "kd" (by decide) (by decide) (by decide)
    (by decide) (by decide) (by decide) (by decide) (by decide)

/-! ## Pipeline preservation lemmas -/

theorem map_fst_filter (q : String → Bool) (r : List (String × Value)) :
    (r.filter (fun p => q p.1)).map Prod.fst = (r.map Prod.fst).filter q := by
  induction r with
  | nil => simp
  | cons p ps ih => by_cases h : q p.1 <;> simp [List.filter_cons, h, ih]

theorem dropColumns_align (df : DF) (names : List String)
    (h : ∀ r ∈ df.rows, r.map Prod.fst = df.cols) :
    ∀ r ∈ (dropColumns df names).rows, r.map Prod.fst = (dropColumns df names).cols := by
  intro r hr
  simp only [dropColumns, List.mem_map] at hr
  obtain ⟨r0, hr0, rfl⟩ := hr
  show (r0.filter (fun p => !(names.contains p.1))).map Prod.fst
    = df.cols.filter (fun c => !(names.contains c))
  rw [map_fst_filter (fun c => !(names.contains c)) r0, h r0 hr0]

theorem getVal_isSome_of_key_mem {r : List (String × Value)} {k : String}
    (h : k ∈ r.map Prod.fst) : ∃ v, getVal r k = some v := by
  rcases List.mem_map.mp h with ⟨p, hp, rfl⟩
  unfold getVal
  have : (r.find? (fun q => q.1 == p.1)).isSome = true := by
    rw [List.find?_isSome]
    exact ⟨p, hp, by simp⟩
  cases hf : r.find? (fun q => q.1 == p.1) with
  | none => rw [hf] at this; simp at this
  | some q => exact ⟨q.2, by simp [hf]⟩

theorem remove_expired_patients_cols (df : DF) (e : List Int) :
    (remove_expired_patients df e).cols = df.cols := by
  unfold remove_expired_patients
  by_cases h : df.cols.contains "discharge_disposition_id" = true
  · rw [if_pos h]
  · rw [if_neg h]

theorem remove_expired_patients_align (df : DF) (e : List Int)
    (h : ∀ r ∈ df.rows, r.map Prod.fst = df.cols) :
    ∀ r ∈ (remove_expired_patients df e).rows,
      r.map Prod.fst = (remove_expired_patients df e).cols := by
  intro r hr
  rw [remove_expired_patients_cols]
  unfold remove_expired_patients at hr
  by_cases hc : df.cols.contains "discharge_disposition_id" = true
  · rw [if_pos hc] at hr
    exact h r (List.mem_of_mem_filter hr)
  · rw [if_neg hc] at hr
    exact h r hr

theorem remove_expired_patients_pred (df : DF) (e : List Int)
    (h : "discharge_disposition_id" ∈ df.cols) :
    ∀ r ∈ (remove_expired_patients df e).rows,
      ((getVal r "discharge_disposition_id").getD .na).isinInt e = false := by
  intro r hr
  unfold remove_expired_patients at hr
  rw [if_pos (by simpa using h)] at hr
  have := List.of_mem_filter hr
  simpa using this

theorem merge_id_descriptions_guard {df m : DF} {ic nc : String} {df' : DF}
    (h : merge_id_descriptions df m ic nc = some df') :
    ic ∈ df.cols ∧ "id" ∈ m.cols ∧ "description" ∈ m.cols
      ∧ "id" ∉ df.cols ∧ "description" ∉ df.cols := by
  unfold merge_id_descriptions at h
  by_cases hg : (df.cols.contains ic && m.cols.contains "id" && m.cols.contains "description"
      && !(df.cols.contains "id") && !(df.cols.contains "description")) = true
  · have hg2 := hg
    simp only [Bool.and_eq_true, List.contains_eq_any_beq] at hg2
    constructor
    · simpa using hg2.1.1.1.1
    constructor
    · simpa using hg2.1.1.1.2
    constructor
    · simpa using hg2.1.1.2
    constructor
    · have h4 := hg2.1.2
      simp at h4
      exact fun habs => (h4 "id" habs) rfl
    · have h5 := hg2.2
      simp at h5
      exact fun habs => (h5 "description" habs) rfl
  · rw [if_neg hg] at h
    exact absurd h (by simp)

theorem merge_id_descriptions_preserved (df m : DF) (ic nc : String) (df' : DF)
    (h : merge_id_descriptions df m ic nc = some df')
    (halign : ∀ r ∈ df.rows, r.map Prod.fst = df.cols) :
    df'.cols = df.cols ++ [nc] ∧
    (∀ r ∈ df'.rows, r.map Prod.fst = df'.cols) ∧
    (∀ r' ∈ df'.rows, ∃ r ∈ df.rows, ∀ k, k ∈ df.cols → getVal r' k = getVal r k) := by
  obtain ⟨hic, hmid, hmdesc, hid, hdesc⟩ := merge_id_descriptions_guard h
  have heq := merge_id_descriptions_eq df m ic nc hic hmid hmdesc hid hdesc halign
  rw [h] at heq
  have hdf' := Option.some.inj heq
  subst hdf'
  refine ⟨rfl, ?_, ?_⟩
  · intro r hr
    simp only [List.mem_map] at hr
    obtain ⟨r0, hr0, rfl⟩ := hr
    show (r0 ++ [(nc, _)]).map Prod.fst = df.cols ++ [nc]
    rw [List.map_append, halign r0 hr0]
    rfl
  · intro r' hr'
    simp only [List.mem_map] at hr'
    obtain ⟨r0, hr0, rfl⟩ := hr'
    refine ⟨r0, hr0, ?_⟩
    intro k hk
    obtain ⟨v, hv⟩ := getVal_isSome_of_key_mem (r := r0) (k := k) (by rw [halign r0 hr0]; exact hk)
    rw [hv]
    exact getVal_append_left hv

theorem clean_pipeline_no_expired (df : DF) (lines : List String) (out : DF)
    (halign : ∀ r ∈ df.rows, r.map Prod.fst = df.cols)
    (h : clean_diabetic_data df lines = some out) :
    ∀ r ∈ out.rows,
      ((getVal r "discharge_disposition_id").getD .na).isinInt [11, 19, 20, 21] = false := by
  unfold clean_diabetic_data at h
  rw [Option.bind_eq_some] at h
  obtain ⟨df1, h1, h⟩ := h
  rw [Option.bind_eq_some] at h
  obtain ⟨df3, h3, h⟩ := h
  rw [Option.bind_eq_some] at h
  obtain ⟨df4, h4, h⟩ := h
  rw [Option.map_eq_some'] at h
  obtain ⟨df5, h5, hout⟩ := h
  have halign1 : ∀ r ∈ df1.rows, r.map Prod.fst = df1.cols := by
    have hshape : df1 = dropColumns df ((["weight"] : List String).filter
        (fun c => optGT (isnaMean (df.colVals c)) (mkRat 9 10))) := by
      unfold drop_columns_if_missing at h1
      by_cases hg : ((["weight"] : List String).all (fun c => df.cols.contains c)) = true
      · rw [if_pos hg] at h1
        exact (Option.some.inj h1).symm
      · rw [if_neg hg] at h1
        exact absurd h1 (by simp)
    rw [hshape]
    exact dropColumns_align df _ halign
  have halign2 : ∀ r ∈ (remove_expired_patients df1 [11, 19, 20, 21]).rows,
      r.map Prod.fst = (remove_expired_patients df1 [11, 19, 20, 21]).cols :=
    remove_expired_patients_align df1 _ halign1
  obtain ⟨hcols3, halign3, hrel3⟩ := merge_id_descriptions_preserved _ _ _ _ _ h3 halign2
  obtain ⟨hdd4, _, _, _, _⟩ := merge_id_descriptions_guard h4
  have hdd2 : "discharge_disposition_id" ∈ (remove_expired_patients df1 [11, 19, 20, 21]).cols := by
    rw [hcols3] at hdd4
    rcases List.mem_append.mp hdd4 with hmem | hmem
    · exact hmem
    · exact absurd (List.mem_singleton.mp hmem) (by decide)
  have hP2 : ∀ r ∈ (remove_expired_patients df1 [11, 19, 20, 21]).rows,
      ((getVal r "discharge_disposition_id").getD .na).isinInt [11, 19, 20, 21] = false := by
    apply remove_expired_patients_pred
    rw [remove_expired_patients_cols] at hdd2
    exact hdd2
  have hP3 : ∀ r ∈ df3.rows,
      ((getVal r "discharge_disposition_id").getD .na).isinInt [11, 19, 20, 21] = false := by
    intro r hr
    obtain ⟨r0, hr0, hkeq⟩ := hrel3 r hr
    rw [hkeq "discharge_disposition_id" hdd2]
    exact hP2 r0 hr0
  obtain ⟨hcols4, halign4, hrel4⟩ := merge_id_descriptions_preserved _ _ _ _ _ h4 halign3
  have hP4 : ∀ r ∈ df4.rows,
      ((getVal r "discharge_disposition_id").getD .na).isinInt [11, 19, 20, 21] = false := by
    intro r hr
    obtain ⟨r0, hr0, hkeq⟩ := hrel4 r hr
    rw [hkeq "discharge_disposition_id" hdd4]
    exact hP3 r0 hr0
  obtain ⟨hcols5, halign5, hrel5⟩ := merge_id_descriptions_preserved _ _ _ _ _ h5 halign4
  have hdd4' : "discharge_disposition_id" ∈ df4.cols := by
    rw [hcols4]
    exact List.mem_append_left _ hdd4
  have hP5 : ∀ r ∈ df5.rows,
      ((getVal r "discharge_disposition_id").getD .na).isinInt [11, 19, 20, 21] = false := by
    intro r hr
    obtain ⟨r0, hr0, hkeq⟩ := hrel5 r hr
    rw [hkeq "discharge_disposition_id" hdd4']
    exact hP4 r0 hr0
  intro r hr
  have hor : out.rows = drop_duplicates df5.rows := by rw [← hout]
  rw [hor] at hr
  exact hP5 r ((dropDuplicatesByAux_sublist (fun x => x) df5.rows []).subset hr)

/-! ## C4: removal of expired patients -/

/-- C4: with the discharge column present, remove_expired_patients keeps
exactly the rows whose discharge_disposition_id is not in the expired list,
preserving order, row content and all columns; and a cleaned pipeline
output (on aligned input rows) has no row whose discharge_disposition_id
lies in the pipeline's expired list 11, 19, 20, 21. -/
theorem remove_expired_patients_spec :
    (∀ (df : DF) (e : List Int), "discharge_disposition_id" ∈ df.cols →
      (remove_expired_patients df e).cols = df.cols ∧
      (remove_expired_patients df e).rows
        = df.rows.filter (fun r => !(((getVal r "discharge_disposition_id").getD .na).isinInt e)) ∧
      ((remove_expired_patients df e).rows).Sublist df.rows ∧
      (∀ r ∈ (remove_expired_patients df e).rows,
        ((getVal r "discharge_disposition_id").getD .na).isinInt e = false)) ∧
    (∀ (df : DF) (lines : List String) (out : DF),
      (∀ r ∈ df.rows, r.map Prod.fst = df.cols) →
      clean_diabetic_data df lines = some out →
      ∀ r ∈ out.rows,
        ((getVal r "discharge_disposition_id").getD .na).isinInt [11, 19, 20, 21] = false) := by
  constructor
  · intro df e hdd
    have hrows : (remove_expired_patients df e).rows
        = df.rows.filter
          (fun r => !(((getVal r "discharge_disposition_id").getD .na).isinInt e)) := by
      unfold remove_expired_patients
      rw [if_pos (by simpa using hdd)]
    refine ⟨remove_expired_patients_cols df e, hrows, ?_, remove_expired_patients_pred df e hdd⟩
    rw [hrows]
    exact List.filter_sublist _
  · exact clean_pipeline_no_expired

/-- Witness for C4 at concrete data: removing ids 11, 19, 20, 21 from exdf
keeps both rows, and the concrete pipeline output exout carries no expired
discharge id. -/
theorem remove_expired_patients_spec_witness :
    ((remove_expired_patients exdf [11, 19, 20, 21]).cols = exdf.cols ∧
      (remove_expired_patients exdf [11, 19, 20, 21]).rows
        = exdf.rows.filter
          (fun r => !(((getVal r "discharge_disposition_id").getD .na).isinInt [11, 19, 20, 21])) ∧
      ((remove_expired_patients exdf [11, 19, 20, 21]).rows).Sublist exdf.rows ∧
      (∀ r ∈ (remove_expired_patients exdf [11, 19, 20, 21]).rows,
        ((getVal r "discharge_disposition_id").getD .na).isinInt [11, 19, 20, 21] = false)) ∧
    (∀ r ∈ exout.rows,
      ((getVal r "discharge_disposition_id").getD .na).isinInt [11, 19, 20, 21] = false) :=
  ⟨remove_expired_patients_spec.1 exdf [11, 19, 20, 21] (by decide),
   remove_expired_patients_spec.2 exdf exlines exout (by decide) (by decide)⟩

/-! ## C5: handling of absent columns -/

/-- A one-column frame without any of the pipeline's id columns. -/
def exnoid : DF := { cols := ["a"], rows := [[("a", Value.int 1)]] }

/-- Counterexample for C5: merge_id_descriptions does not skip-and-return
when its id column is absent; it raises (modelled as none), so the claimed
behaviour of returning the frame unchanged fails at this input. -/
theorem merge_id_descriptions_missing_column_raises :
    merge_id_descriptions exnoid exmap "admission_type_id" "admission_type_desc" = none ∧
    merge_id_descriptions exnoid exmap "admission_type_id" "admission_type_desc"
      ≠ some exnoid := by
  constructor
  · decide
  · decide

/-- C5 amended: only remove_expired_patients checks for its column and
returns the frame unchanged when discharge_disposition_id is absent;
merge_id_descriptions and drop_columns_if_missing raise (none) when a
referenced column is absent instead of skipping. -/
theorem missing_column_handling :
    (∀ (df : DF) (e : List Int), "discharge_disposition_id" ∉ df.cols →
      remove_expired_patients df e = df) ∧
    (∀ (df m : DF) (ic nc : String), ic ∉ df.cols →
      merge_id_descriptions df m ic nc = none) ∧
    (∀ (df : DF) (t : ℚ) (columns : List String),
      (∃ c ∈ columns, c ∉ df.cols) → drop_columns_if_missing df t columns = none) := by
  refine ⟨?_, ?_, ?_⟩
  · intro df e hdd
    unfold remove_expired_patients
    rw [if_neg (by simpa using hdd)]
  · intro df m ic nc hic
    unfold merge_id_descriptions
    rw [if_neg ?_]
    simp only [Bool.and_eq_true, not_and]
    intro hg _
    exact hic (by simpa using hg.1.1.1)
  · intro df t columns ⟨c, hcmem, hcnot⟩
    unfold drop_columns_if_missing
    rw [if_neg ?_]
    simp only [List.all_eq_true]
    intro hall
    exact hcnot (by simpa using hall c hcmem)

/-- Witness for the amended C5 at concrete frames. -/
theorem missing_column_handling_witness :
    remove_expired_patients exnoid [11, 19, 20, 21] = exnoid ∧
    merge_id_descriptions exnoid exmap "discharge_disposition_id" "discharge_desc" = none ∧
    drop_columns_if_missing exnoid (mkRat 9 10) ["weight"] = none :=
  ⟨(missing_column_handling.1 exnoid [11, 19, 20, 21] (by decide)),
   (missing_column_handling.2.1 exnoid exmap "discharge_disposition_id" "discharge_desc"
     (by decide)),
   (missing_column_handling.2.2 exnoid (mkRat 9 10) ["weight"] ⟨"weight", by decide, by decide⟩)⟩

/-! ## C6: the mapping-file parser against its line-by-line specification -/

/-- The most recently seen section header in a list of lines (each line
stripped before the startswith tests). -/
def lastHeader (lines : List String) : Option MapSection :=
  lines.reverse.findSome? (fun l => headerOf (pyStrip l.toList))

/-- Refinement specification of the parser, following the spec's words: a
line contributes an entry exactly when, after stripping, it is not blank,
is not itself a section header, follows some most-recently-seen header (the
entry is recorded under that section), has a comma, and its part before the
first comma is all digits; the entry is the integer id with the remainder,
surrounding double quotes stripped, as description.  The parameter cur is
the section governing the first line (none at the top of the file). -/
def spec_sections_from (cur : Option MapSection) (lines : List String) (s : MapSection) :
    List (Int × String) :=
  (List.range lines.length).filterMap (fun i =>
    let line := pyStrip (lines.getD i "").toList
    if line.isEmpty then none
    else if (headerOf line).isSome then none
    else if (lastHeader (lines.take i)).or cur = some s then parseEntry line
    else none)

/-- The specification at the top of the file: no section is active before
the first header. -/
def spec_sections (lines : List String) (s : MapSection) : List (Int × String) :=
  spec_sections_from none lines s

theorem headerOf_of_isEmpty {cs : List Char} (h : cs.isEmpty = true) : headerOf cs = none := by
  rw [List.isEmpty_iff] at h
  subst h
  rfl

theorem lastHeader_cons (raw : String) (xs : List String) :
    lastHeader (raw :: xs) = (lastHeader xs).or (headerOf (pyStrip raw.toList)) := by
  unfold lastHeader
  rw [List.reverse_cons, List.findSome?_append]
  congr 1
  cases h : headerOf (pyStrip raw.toList) <;>
    simp only [String.toList] at h <;> simp [List.findSome?_cons, h]

theorem filterMap_cons_toList {α β : Type} (f : α → Option β) (a : α) (l : List α) :
    (a :: l).filterMap f = (f a).toList ++ l.filterMap f := by
  cases h : f a <;> simp [List.filterMap_cons, h]

theorem spec_sections_from_cons (cur : Option MapSection) (raw : String)
    (rest : List String) (s : MapSection) :
    spec_sections_from cur (raw :: rest) s =
      (if (pyStrip raw.toList).isEmpty then []
       else if (headerOf (pyStrip raw.toList)).isSome then []
       else if cur = some s then (parseEntry (pyStrip raw.toList)).toList else []) ++
      spec_sections_from ((headerOf (pyStrip raw.toList)).or cur) rest s := by
  unfold spec_sections_from
  rw [List.length_cons, List.range_succ_eq_map, filterMap_cons_toList, List.filterMap_map]
  congr 1
  · simp only [List.getD_cons_zero, List.take_zero]
    show (if (pyStrip raw.toList).isEmpty = true then none
      else if (headerOf (pyStrip raw.toList)).isSome = true then none
      else if (Option.or (lastHeader []) cur) = some s
        then parseEntry (pyStrip raw.toList) else none).toList = _
    rw [show lastHeader [] = none from rfl, Option.none_or]
    by_cases h1 : (pyStrip raw.toList).isEmpty = true
    · rw [if_pos h1, if_pos h1]
      rfl
    · rw [if_neg h1, if_neg h1]
      by_cases h2 : (headerOf (pyStrip raw.toList)).isSome = true
      · rw [if_pos h2, if_pos h2]
        rfl
      · rw [if_neg h2, if_neg h2]
        by_cases h3 : cur = some s
        · rw [if_pos h3, if_pos h3]
        · rw [if_neg h3, if_neg h3]
          rfl
  · apply List.filterMap_congr
    intro i _
    show (fun i => _) (Nat.succ i) = _
    simp only [Function.comp, List.getD_cons_succ, List.take_succ_cons, lastHeader_cons]
    rw [Option.or_assoc]

theorem MapSections_get_push (acc : MapSections) (sec : MapSection) (e : Int × String)
    (s : MapSection) :
    (acc.push sec e).get s = acc.get s ++ (if sec = s then [e] else []) := by
  cases sec <;> cases s <;> simp [MapSections.push, MapSections.get]

theorem parseLoop_get (lines : List String) :
    ∀ (cur : Option MapSection) (acc : MapSections) (s : MapSection),
      (parseLoop cur acc lines).get s = acc.get s ++ spec_sections_from cur lines s := by
  induction lines with
  | nil =>
    intro cur acc s
    simp [parseLoop, spec_sections_from]
  | cons raw rest ih =>
    intro cur acc s
    rw [spec_sections_from_cons]
    show (if (pyStrip raw.toList).isEmpty then parseLoop cur acc rest
      else match headerOf (pyStrip raw.toList) with
        | some h => parseLoop (some h) acc rest
        | none => match cur with
          | none => parseLoop cur acc rest
          | some s0 => match parseEntry (pyStrip raw.toList) with
            | some e => parseLoop cur (acc.push s0 e) rest
            | none => parseLoop cur acc rest).get s = _
    by_cases h1 : (pyStrip raw.toList).isEmpty = true
    · rw [if_pos h1, if_pos h1, ih cur acc s]
      rw [show headerOf (pyStrip raw.toList) = none from headerOf_of_isEmpty h1]
      simp
    · rw [if_neg h1, if_neg h1]
      cases h2 : headerOf (pyStrip raw.toList) with
      | some hsec =>
        rw [ih (some hsec) acc s]
        simp [h2]
      | none =>
        simp only [Option.isSome_none, Bool.false_eq_true, if_false]
        cases cur with
        | none =>
          rw [ih none acc s]
          simp [h2]
        | some s0 =>
          cases h3 : parseEntry (pyStrip raw.toList) with
          | some e =>
            rw [ih (some s0) (acc.push s0 e) s, MapSections_get_push]
            rw [List.append_assoc]
            congr 1
            simp only [h2, Option.none_or]
            by_cases h4 : s0 = s
            · rw [if_pos h4, if_pos (by rw [h4])]
              simp [h3]
            · rw [if_neg h4, if_neg (by intro habs; exact h4 (Option.some.inj habs))]
          | none =>
            rw [ih (some s0) acc s]
            simp only [h2, Option.none_or]
            by_cases h4 : some s0 = some s
            · rw [if_pos h4]
              simp [h3]
            · rw [if_neg h4]
              simp

/-- C6: load_mapping_sections equals its line-by-line specification: it
scans the lines, recognizes the three fixed section headers, splits each
subsequent line at the first comma recording the digits before it as an
integer id and the quote-stripped remainder as the description under the
most recently seen section, and silently skips every line that is blank,
has no comma, precedes any header, or whose id part is not all digits. -/
theorem load_mapping_sections_spec (lines : List String) :
    load_mapping_sections lines =
      (sectionToDF (spec_sections lines .atype),
       sectionToDF (spec_sections lines .ddisp),
       sectionToDF (spec_sections lines .asource)) := by
  unfold load_mapping_sections spec_sections
  have ha : (parseLoop none ⟨[], [], []⟩ lines).atype = spec_sections_from none lines .atype := by
    have h := parseLoop_get lines none ⟨[], [], []⟩ .atype
    simpa [MapSections.get] using h
  have hd : (parseLoop none ⟨[], [], []⟩ lines).ddisp = spec_sections_from none lines .ddisp := by
    have h := parseLoop_get lines none ⟨[], [], []⟩ .ddisp
    simpa [MapSections.get] using h
  have hs : (parseLoop none ⟨[], [], []⟩ lines).asource
      = spec_sections_from none lines .asource := by
    have h := parseLoop_get lines none ⟨[], [], []⟩ .asource
    simpa [MapSections.get] using h
  show (sectionToDF (parseLoop none ⟨[], [], []⟩ lines).atype,
    sectionToDF (parseLoop none ⟨[], [], []⟩ lines).ddisp,
    sectionToDF (parseLoop none ⟨[], [], []⟩ lines).asource) = _
  rw [ha, hd, hs]

/-! ## C7: the ICD-9 scraper (src/icd9_scraper.py) -/

/-- The outcome of the HTTP fetch for one code: a raised exception, or a
response with a status code and the stripped texts of the div elements of
class dlvl found in the page. -/
inductive FetchResult where
  | err (msg : String) : FetchResult
  | resp (status : Nat) (divTexts : List String) : FetchResult

/-- src/icd9_scraper.py, get_icd9_description, as a function of the fetch
outcome: on an exception the handler logs and returns None; on a non-200
status it logs and returns None; on a 200 response it returns the text of
the first dlvl div starting with the code, with the code removed from the
front and surrounding whitespace stripped, or None when no div matches. -/
def get_icd9_description (code : String) (r : FetchResult) : Option String :=
  match r with
  | .err _ => none
  | .resp status divTexts =>
    if status = 200 then
      match divTexts.find? (fun t => t.startsWith code) with
      | some t => some ((t.drop code.length).trim)
      | none => none
    else none

/-- Python dict assignment d[k] = v: overwrite in place if the key exists,
append otherwise. -/
def dictInsert (d : List (String × String)) (k v : String) : List (String × String) :=
  if d.any (fun p => p.1 == k) then d.map (fun p => if p.1 == k then (k, v) else p)
  else d ++ [(k, v)]

/-- Python dict lookup. -/
def dictLookup (d : List (String × String)) (k : String) : Option String :=
  (d.find? (fun p => p.1 == k)).map Prod.snd

/-- The loop body of scrape_top_codes: fetch the description for one code;
a truthy (non-None, nonempty) description is stored, and otherwise the
placeholder is stored. -/
def scrapeStep (fetch : String → FetchResult) (descriptions : List (String × String))
    (code : String) : List (String × String) :=
  match get_icd9_description code (fetch code) with
  | some desc =>
    if desc ≠ "" then dictInsert descriptions code desc
    else dictInsert descriptions code "Description not found"
  | none => dictInsert descriptions code "Description not found"

/-- src/icd9_scraper.py, scrape_top_codes: run the loop over all codes
starting from the empty dict. -/
def scrape_top_codes (codes : List String) (fetch : String → FetchResult) :
    List (String × String) :=
  codes.foldl (scrapeStep fetch) []

/-- The value scrape_top_codes stores for one code. -/
def scrapedValue (code : String) (fetch : String → FetchResult) : String :=
  match get_icd9_description code (fetch code) with
  | some desc => if desc ≠ "" then desc else "Description not found"
  | none => "Description not found"

theorem dictLookup_map_overwrite {d : List (String × String)} {k v : String}
    (h : d.any (fun p => p.1 == k) = true) :
    dictLookup (d.map (fun p => if p.1 == k then (k, v) else p)) k = some v := by
  induction d with
  | nil => simp at h
  | cons q qs ih =>
    by_cases hq : (q.1 == k) = true
    · unfold dictLookup
      rw [List.map_cons, if_pos hq, List.find?_cons]
      simp
    · unfold dictLookup
      have hq' : (q.1 == k) = false := by simpa using hq
      rw [List.map_cons, if_neg hq, List.find?_cons, hq']
      have h2 : (qs.any fun p => p.1 == k) = true := by
        rw [List.any_cons] at h
        simpa [hq'] using h
      exact ih h2

theorem dictLookup_insert_self (d : List (String × String)) (k v : String) :
    dictLookup (dictInsert d k v) k = some v := by
  unfold dictInsert
  by_cases h : d.any (fun p => p.1 == k) = true
  · rw [if_pos h]
    exact dictLookup_map_overwrite h
  · rw [if_neg h]
    unfold dictLookup
    rw [List.find?_append]
    have hnone : d.find? (fun p => p.1 == k) = none := by
      rw [List.find?_eq_none]
      intro p hp habs
      rw [List.any_eq_true] at h
      exact h ⟨p, hp, habs⟩
    rw [hnone]
    simp

theorem dictLookup_insert_ne (d : List (String × String)) (k v k' : String) (hne : k' ≠ k) :
    dictLookup (dictInsert d k v) k' = dictLookup d k' := by
  unfold dictInsert
  by_cases h : d.any (fun p => p.1 == k) = true
  · rw [if_pos h]
    clear h
    induction d with
    | nil => rfl
    | cons q qs ih =>
      unfold dictLookup at ih ⊢
      rw [List.map_cons, List.find?_cons, List.find?_cons]
      by_cases hq : (q.1 == k) = true
      · rw [if_pos hq]
        have h1 : (((k, v) : String × String).1 == k') = false := by
          simpa using fun habs => hne habs.symm
        have h2 : (q.1 == k') = false := by
          have : q.1 = k := by simpa using hq
          simp only [this]
          simpa using fun habs => hne habs.symm
        rw [h1, h2]
        exact ih
      · rw [if_neg hq]
        by_cases hq' : (q.1 == k') = true
        · rw [hq']
        · have : (q.1 == k') = false := by simpa using hq'
          rw [this]
          exact ih
  · rw [if_neg h]
    unfold dictLookup
    rw [List.find?_append]
    have hlast : ([((k, v) : String × String)]).find? (fun p => p.1 == k') = none := by
      rw [List.find?_eq_none]
      intro p hp
      rw [List.mem_singleton] at hp
      subst hp
      simpa using fun habs => hne habs.symm
    rw [hlast]
    cases d.find? (fun p => p.1 == k') <;> rfl

theorem dictInsert_keys (d : List (String × String)) (k v : String) :
    ∀ k', k' ∈ (dictInsert d k v).map Prod.fst ↔ k' = k ∨ k' ∈ d.map Prod.fst := by
  intro k'
  unfold dictInsert
  by_cases h : d.any (fun p => p.1 == k) = true
  · rw [if_pos h]
    have hkeys : (d.map (fun p => if p.1 == k then (k, v) else p)).map Prod.fst
        = d.map Prod.fst := by
      rw [List.map_map]
      apply List.map_congr_left
      intro p _
      by_cases hp : (p.1 == k) = true
      · have : p.1 = k := by simpa using hp
        simp [Function.comp, hp, this]
      · have hp' : (p.1 == k) = false := by simpa using hp
        simp [Function.comp, hp']
    rw [hkeys]
    constructor
    · intro hmem
      exact Or.inr hmem
    · rintro (rfl | hmem)
      · rw [List.any_eq_true] at h
        obtain ⟨p, hp, hpk⟩ := h
        have : p.1 = k' := by simpa using hpk
        exact this ▸ List.mem_map_of_mem Prod.fst hp
      · exact hmem
  · rw [if_neg h]
    rw [List.map_append, List.mem_append]
    constructor
    · rintro (hmem | hmem)
      · exact Or.inr hmem
      · rcases List.mem_singleton.mp hmem with rfl
        exact Or.inl rfl
    · rintro (rfl | hmem)
      · exact Or.inr (by simp)
      · exact Or.inl hmem

theorem dictInsert_keys_nodup (d : List (String × String)) (k v : String)
    (h : (d.map Prod.fst).Nodup) : ((dictInsert d k v).map Prod.fst).Nodup := by
  unfold dictInsert
  by_cases hany : d.any (fun p => p.1 == k) = true
  · rw [if_pos hany]
    have hkeys : (d.map (fun p => if p.1 == k then (k, v) else p)).map Prod.fst
        = d.map Prod.fst := by
      rw [List.map_map]
      apply List.map_congr_left
      intro p _
      by_cases hp : (p.1 == k) = true
      · have : p.1 = k := by simpa using hp
        simp [Function.comp, hp, this]
      · have hp' : (p.1 == k) = false := by simpa using hp
        simp [Function.comp, hp']
    rw [hkeys]
    exact h
  · rw [if_neg hany]
    rw [List.map_append]
    apply List.Nodup.append h (by simp)
    intro a ha hb
    have hb' : a = k := by simpa using hb
    subst hb'
    rw [List.any_eq_true] at hany
    rcases List.mem_map.mp ha with ⟨p, hp, rfl⟩
    exact hany ⟨p, hp, by simp⟩

theorem scrapeStep_eq (fetch : String → FetchResult) (acc : List (String × String))
    (code : String) :
    scrapeStep fetch acc code = dictInsert acc code (scrapedValue code fetch) := by
  unfold scrapeStep scrapedValue
  cases get_icd9_description code (fetch code) with
  | none => rfl
  | some d =>
    by_cases hd : d ≠ ""
    · simp [hd]
    · simp [hd]

theorem scrape_foldl_not_mem (fetch : String → FetchResult) :
    ∀ (codes : List String) (acc : List (String × String)) (c : String), c ∉ codes →
      dictLookup (codes.foldl (scrapeStep fetch) acc) c = dictLookup acc c := by
  intro codes
  induction codes with
  | nil => intro acc c _; rfl
  | cons code rest ih =>
    intro acc c hc
    rw [List.foldl_cons, ih _ c (fun h => hc (List.mem_cons_of_mem _ h)), scrapeStep_eq]
    exact dictLookup_insert_ne _ _ _ _ (fun habs => hc (habs ▸ List.mem_cons_self _ _))

theorem scrape_foldl_mem (fetch : String → FetchResult) :
    ∀ (codes : List String) (acc : List (String × String)) (c : String), c ∈ codes →
      dictLookup (codes.foldl (scrapeStep fetch) acc) c = some (scrapedValue c fetch) := by
  intro codes
  induction codes with
  | nil => intro acc c hc; simp at hc
  | cons code rest ih =>
    intro acc c hc
    rw [List.foldl_cons, scrapeStep_eq]
    by_cases hcr : c ∈ rest
    · exact ih _ c hcr
    · have hc' : c = code := by
        rcases List.mem_cons.mp hc with h | h
        · exact h
        · exact absurd h hcr
      subst hc'
      rw [scrape_foldl_not_mem fetch rest _ c hcr]
      exact dictLookup_insert_self _ _ _

theorem scrape_foldl_keys (fetch : String → FetchResult) :
    ∀ (codes : List String) (acc : List (String × String)) (c : String),
      c ∈ (codes.foldl (scrapeStep fetch) acc).map Prod.fst
        ↔ c ∈ codes ∨ c ∈ acc.map Prod.fst := by
  intro codes
  induction codes with
  | nil => intro acc c; simp
  | cons code rest ih =>
    intro acc c
    rw [List.foldl_cons, scrapeStep_eq, ih, List.mem_cons]
    rw [dictInsert_keys]
    tauto

theorem scrape_foldl_nodup (fetch : String → FetchResult) :
    ∀ (codes : List String) (acc : List (String × String)),
      (acc.map Prod.fst).Nodup →
      ((codes.foldl (scrapeStep fetch) acc).map Prod.fst).Nodup := by
  intro codes
  induction codes with
  | nil => intro acc h; exact h
  | cons code rest ih =>
    intro acc h
    rw [List.foldl_cons, scrapeStep_eq]
    exact ih _ (dictInsert_keys_nodup acc code _ h)

/-- C7: scrape_top_codes returns one entry per input code, valued by the
fetched description when the lookup succeeds and by the placeholder when
the fetch raises, the status is not 200, or no dlvl div matches the code;
the exception is absorbed inside get_icd9_description and never escapes. -/
theorem scrape_top_codes_spec (codes : List String) (fetch : String → FetchResult) :
    ((scrape_top_codes codes fetch).map Prod.fst).Nodup ∧
    (∀ c, c ∈ (scrape_top_codes codes fetch).map Prod.fst ↔ c ∈ codes) ∧
    (∀ c ∈ codes,
      dictLookup (scrape_top_codes codes fetch) c = some (scrapedValue c fetch)) ∧
    (∀ c ∈ codes, ∀ e, fetch c = .err e →
      dictLookup (scrape_top_codes codes fetch) c = some "Description not found") ∧
    (∀ c ∈ codes, ∀ st ts, fetch c = .resp st ts → st ≠ 200 →
      dictLookup (scrape_top_codes codes fetch) c = some "Description not found") ∧
    (∀ c ∈ codes, ∀ ts, fetch c = .resp 200 ts → (∀ t ∈ ts, t.startsWith c = false) →
      dictLookup (scrape_top_codes codes fetch) c = some "Description not found") := by
  refine ⟨scrape_foldl_nodup fetch codes [] (by simp), ?_, ?_, ?_, ?_, ?_⟩
  · intro c
    rw [scrape_top_codes, scrape_foldl_keys]
    simp
  · intro c hc
    exact scrape_foldl_mem fetch codes [] c hc
  · intro c hc e he
    rw [scrape_top_codes, scrape_foldl_mem fetch codes [] c hc]
    unfold scrapedValue get_icd9_description
    rw [he]
  · intro c hc st ts hr hst
    rw [scrape_top_codes, scrape_foldl_mem fetch codes [] c hc]
    unfold scrapedValue get_icd9_description
    rw [hr]
    simp [hst]
  · intro c hc ts hr hmatch
    rw [scrape_top_codes, scrape_foldl_mem fetch codes [] c hc]
    unfold scrapedValue get_icd9_description
    rw [hr]
    have hnone : ts.find? (fun t => t.startsWith c) = none := by
      rw [List.find?_eq_none]
      intro t ht
      rw [hmatch t ht]
      simp
    simp [hnone]

/-- A fetch outcome for exercising the scraper: code 428 resolves, all
other codes raise. -/
def exfetch (c : String) : FetchResult :=
  if c = "428" then .resp 200 ["428 Heart failure"] else .err "timeout"

/-- Witness for C7: both entries exist, the resolving code gets its scraped
value and the failing code gets the placeholder. -/
theorem scrape_top_codes_spec_witness :
    dictLookup (scrape_top_codes ["428", "999"] exfetch) "428"
      = some (scrapedValue "428" exfetch) ∧
    dictLookup (scrape_top_codes ["428", "999"] exfetch) "999"
      = some "Description not found" :=
  ⟨(scrape_top_codes_spec ["428", "999"] exfetch).2.2.1 "428" (by decide),
   (scrape_top_codes_spec ["428", "999"] exfetch).2.2.2.1 "999" (by decide) "timeout"
     (by rw [show exfetch "999" = .err "timeout" from rfl])⟩

/-! ## C8: binary encodings (spec-modelled) -/

/-- Modelled from the spec: the declared domain of the readmission target
column.  The target/medication encoding step of the cleaning variants is
not present under src, so the encodings are modelled from the spec's
description of binary target and medication encodings on their declared
categorical domains. -/
def readmitted_domain : List String := ["<30", ">30", "NO"]

/-- Modelled from the spec: the binary encoding of the readmission target,
1 for an early readmission and 0 otherwise; undefined outside the declared
domain. -/
def encode_readmitted (v : String) : Option Nat :=
  if v = "<30" then some 1
  else if v = ">30" then some 0
  else if v = "NO" then some 0
  else none

/-- Modelled from the spec: the declared domain of a medication column. -/
def medication_domain : List String := ["No", "Steady", "Up", "Down"]

/-- Modelled from the spec: the binary encoding of a medication column, 0
when the drug is not taken and 1 otherwise; undefined outside the declared
domain. -/
def encode_medication (v : String) : Option Nat :=
  if v = "No" then some 0
  else if v = "Steady" ∨ v = "Up" ∨ v = "Down" then some 1
  else none

/-- C8: each binary encoding is a total function on its declared domain and
its value always lies in the binary domain 0 or 1. -/
theorem binary_encodings_total :
    (∀ v ∈ readmitted_domain,
      encode_readmitted v = some 0 ∨ encode_readmitted v = some 1) ∧
    (∀ v ∈ medication_domain,
      encode_medication v = some 0 ∨ encode_medication v = some 1) := by
  decide

/-- Witness for C8 at concrete domain values. -/
theorem binary_encodings_total_witness :
    (encode_readmitted "NO" = some 0 ∨ encode_readmitted "NO" = some 1) ∧
    (encode_medication "Up" = some 0 ∨ encode_medication "Up" = some 1) :=
  ⟨binary_encodings_total.1 "NO" (by decide), binary_encodings_total.2 "Up" (by decide)⟩

/-! ## C9: loading and the missing-value marker -/

/-- The default strings pandas read_csv interprets as NaN (per the pandas
read_csv documentation); passing na_values adds to this set because
keep_default_na is left at its default True in load_data. -/
def default_na_values : List String :=
  ["", "#N/A", "#N/A N/A", "#NA", "-1.#IND", "-1.#QNAN", "-NaN", "-nan",
   "1.#IND", "1.#QNAN", "<NA>", "N/A", "NA", "NULL", "NaN", "None",
   "n/a", "nan", "null"]

/-- One raw CSV cell under pd.read_csv(path, na_values = [chr(63)]): the
question mark and every default marker load as NaN, any other cell keeps
its text. -/
def loadCell (cell : String) : Value :=
  if cell = "?" then Value.na
  else if cell ∈ default_na_values then Value.na
  else Value.str cell

/-- src/data_cleaning.py, load_data, on a parsed CSV grid: the header row
gives the columns, each body row is paired positionally with the header
labels, cells converted by loadCell. -/
def load_data (header : List String) (body : List (List String)) : DF :=
  { cols := header, rows := body.map (fun row => header.zip (row.map loadCell)) }

/-- Counterexample for C9: the raw cell NA is not the single character
question mark, yet load_data (read_csv with the default NaN markers still
active) loads it as NaN, so loading alters a cell other than a question
mark, contrary to the claim. -/
theorem load_data_alters_default_marker :
    (load_data ["a"] [["NA"]]).rows = [[("a", Value.na)]] ∧
    (load_data ["a"] [["NA"]]).rows ≠ [[("a", Value.str "NA")]] ∧
    "NA" ≠ "?" := by
  refine ⟨by decide, by decide, by decide⟩

/-- C9 amended: every question-mark cell loads as NaN, cells equal to one
of pandas' default missing markers (such as NA, NaN or the empty cell) also
load as NaN, and every other cell is loaded unchanged as its text; the
header and the number of rows are preserved. -/
theorem load_data_spec (header : List String) (body : List (List String)) :
    (load_data header body).cols = header ∧
    (load_data header body).rows.length = body.length ∧
    (∀ row ∈ body, header.zip (row.map loadCell) ∈ (load_data header body).rows) ∧
    (∀ cell : String, cell = "?" → loadCell cell = Value.na) ∧
    (∀ cell : String, cell ∈ default_na_values → loadCell cell = Value.na) ∧
    (∀ cell : String, cell ≠ "?" → cell ∉ default_na_values →
      loadCell cell = Value.str cell) := by
  refine ⟨rfl, by simp [load_data], ?_, ?_, ?_, ?_⟩
  · intro row hrow
    exact List.mem_map_of_mem _ hrow
  · intro cell hcell
    unfold loadCell
    rw [if_pos hcell]
  · intro cell hcell
    unfold loadCell
    by_cases h1 : cell = "?"
    · rw [if_pos h1]
    · rw [if_neg h1, if_pos hcell]
  · intro cell h1 h2
    unfold loadCell
    rw [if_neg h1, if_neg h2]

/-- Witness for the amended C9 at concrete cells. -/
theorem load_data_spec_witness :
    (load_data ["a"] [["?"], ["5"]]).cols = ["a"] ∧
    loadCell "?" = Value.na ∧
    loadCell "NaN" = Value.na ∧
    loadCell "5" = Value.str "5" :=
  ⟨(load_data_spec ["a"] [["?"], ["5"]]).1,
   (load_data_spec ["a"] []).2.2.2.1 "?" rfl,
   (load_data_spec ["a"] []).2.2.2.2.1 "NaN" (by decide),
   (load_data_spec ["a"] []).2.2.2.2.2 "5" (by decide) (by decide)⟩
